import Mathlib

/-! go-simpleswap: the request/response adapter and its operation wrappers

A shallow embedding of `gosimpleswap.go`, `currency.go` and `exchange.go`.

* Go maps with string keys are duplicate-free association lists (`GoMap`); a
  nil map is `none`, an empty non-nil map is `some GoMap.empty`.
* A Go `error` is its message text; a possibly-nil error is an `Option String`.
* Pointers that may be nil (`*ErrorResponse`, `*RangesResponse`) are `Option`s.
* The destination `res any` that `makeRequest` writes through is passed in and
  returned (state passing).
* The libraries the code calls are not part of the repository.  The few resty
  request setters the code uses are modelled directly (they are one-line
  wrappers over `url.Values.Set` and a field assignment); the transport,
  `json.Unmarshal`, `strconv.ParseFloat`, `time.Time` and header-key
  canonicalisation are parameters, so every theorem holds for all of them.
-/

namespace GoSimpleSwap

/-! ## Go maps -/

/-- A Go `map[string]β`: key/value entries in which no key occurs twice.  The
order of the entries stands for one iteration order of the map. -/
structure GoMap (β : Type) where
  entries : List (String × β)
  nodupKeys : (entries.map Prod.fst).Nodup

namespace GoMap

variable {β : Type}

/-- The empty, non-nil map (`map[string]β{}`). -/
def empty : GoMap β := ⟨[], List.nodup_nil⟩

/-- The comma-ok lookup `v, ok := m[k]`. -/
def get? (m : GoMap β) (k : String) : Option β := m.entries.lookup k

/-- Removing the entry of key `k` from a list of entries. -/
def eraseKey (k : String) (l : List (String × β)) : List (String × β) :=
  l.filter (fun p => p.1 != k)

/-- The assignment `m[k] = v`: the entry of `k` is replaced or created. -/
def set (m : GoMap β) (k : String) (v : β) : GoMap β :=
  ⟨(k, v) :: eraseKey k m.entries,
    by
      rw [List.map_cons, List.nodup_cons]
      refine ⟨?_, ?_⟩
      · simp [eraseKey, List.mem_map, List.mem_filter]
      · exact List.Nodup.sublist (List.Sublist.map _ (List.filter_sublist m.entries)) m.nodupKeys⟩

end GoMap

/-! ## Library types and the operations the code calls on them -/

/-- A `[]byte` response body. -/
abbrev Bytes := List Nat

/-- The `url.Values` and `http.Header` types: `map[string][]string`. -/
abbrev Values := GoMap (List String)

/-- The method `url.Values.Set`: `v[key] = []string{value}`; it replaces any
existing values of the key. -/
def Values.Set (v : Values) (key value : String) : Values := GoMap.set v key [value]

/-- The fields of a `resty.Request` that the code sets.  `Body` is the
`interface{}` body: nil, or the parameter mapping given to `SetBody`. -/
structure Request where
  QueryParam : Values
  Header : Values
  Body : Option (GoMap String)

/-- A `resty.Response` as the code reads it: `StatusCode()` and `Body()`. -/
structure Response where
  StatusCode : Int
  Body : Bytes

/-- A `resty.Client` as the code configures it: only the base URL is set. -/
structure RestyClient where
  BaseURL : String

/-- The transport side of the libraries: how `net/textproto` canonicalises a
header key, and what `Request.Get` / `Request.Post` of a request on a client
return, by verb and URL: a response or a transport error. -/
structure Http where
  CanonicalMIMEHeaderKey : String → String
  Send : RestyClient → String → String → Request → Except String Response

/-! ## gosimpleswap.go -/

/-- The struct `ErrorResponse`, with its JSON keys `is_api_error`, `code`,
`error`, `description`, `trace_id`. -/
structure ErrorResponse where
  IsAPIError : Bool
  Code : Int
  Error : String
  Description : String
  TraceID : String
deriving DecidableEq, Repr

/-- The zero value `var errResp ErrorResponse`. -/
def ErrorResponse.zero : ErrorResponse :=
  { IsAPIError := false, Code := 0, Error := "", Description := "", TraceID := "" }

/-- The function `json.Unmarshal` at the two destination types of one call: it
receives the body and the destination's current value, and returns the
destination's new value and a possibly-nil error. -/
structure Json (α : Type) where
  Unmarshal : Bytes → α → α × Option String
  UnmarshalError : Bytes → ErrorResponse → ErrorResponse × Option String

/-- The struct `Client`. -/
structure Client where
  apiKey : String
  httpClient : RestyClient

def baseURL : String := "https://api.simpleswap.io"

def getCurrencyEndpoint : String := "/get_currency"
def getAllCurrenciesEndpoint : String := "/get_all_currencies"
def createExchangeEndpoint : String := "/create_exchange"
def getExchangeEndpoint : String := "/get_exchange"
def getExchangesEndpoint : String := "/get_exchanges"
def getRangesEndpoint : String := "/get_ranges"
def getEstimatedEndpoint : String := "/get_estimated"
def getPairsEndpoint : String := "/get_pairs"
def getPairEndpoint : String := "/get_pair"

/-- The constant `http.MethodGet`. -/
def MethodGet : String := "GET"

/-- The constant `http.MethodPost`. -/
def MethodPost : String := "POST"

/-- The constant `http.StatusOK`. -/
def StatusOK : Int := 200

/-- The constructor `New`: `resty.New().SetBaseURL(baseURL)` with the key. -/
def New (apiKey : String) : Client :=
  { apiKey := apiKey, httpClient := { BaseURL := baseURL } }

/-- The call `c.httpClient.R()`: a fresh request with no query parameter, no
header and a nil body. -/
def RestyClient.R (_ : RestyClient) : Request :=
  { QueryParam := GoMap.empty, Header := GoMap.empty, Body := none }

/-- The setter `Request.SetQueryParam`: `r.QueryParam.Set(param, value)`. -/
def Request.SetQueryParam (r : Request) (param value : String) : Request :=
  { r with QueryParam := Values.Set r.QueryParam param value }

/-- The setter `Request.SetQueryParams`: `SetQueryParam` for every entry. -/
def Request.SetQueryParams (r : Request) (params : GoMap String) : Request :=
  params.entries.foldl (fun r p => r.SetQueryParam p.1 p.2) r

/-- The setter `Request.SetHeader`: `r.Header.Set(header, value)`, which stores
the value under the canonical form of the key. -/
def Request.SetHeader (http : Http) (r : Request) (header value : String) : Request :=
  { r with Header := Values.Set r.Header (http.CanonicalMIMEHeaderKey header) value }

/-- The setter `Request.SetBody`: `r.Body = body`. -/
def Request.SetBody (r : Request) (body : GoMap String) : Request :=
  { r with Body := some body }

/-- The formatting `fmt.Sprintf("%v", b)` of a bool. -/
def fmtBool (b : Bool) : String := if b then "true" else "false"

/-- The formatting `fmt.Sprintf("%d", n)` of an int: decimal, `-` when negative. -/
def fmtInt (n : Int) : String := toString n

/-- The method `createErrorResponse`; `fmt.Sprintf("%s: %v", msg, err)` is the
message, `": "` and the error's text.  `Code`, `Error` and `TraceID` are not set
by the literal, so they are zero values. -/
def Client.createErrorResponse (_ : Client) (err : String) (msg : String) : ErrorResponse :=
  { IsAPIError := false, Code := 0, Error := "", Description := msg ++ ": " ++ err, TraceID := "" }

/-- The method `setRequestHeadersAndParams`.  Ranging over a nil map does
nothing. -/
def Client.setRequestHeadersAndParams (http : Http) (_ : Client) (r : Request) (method : String)
    (params headers : Option (GoMap String)) : Request :=
  let r :=
    match headers with
    | none => r
    | some hs => hs.entries.foldl (fun r p => r.SetHeader http p.1 p.2) r
  match params with
  | none => r
  | some ps => if method = MethodPost then r.SetBody ps else r.SetQueryParams ps

/-- The method `executeRequest`. -/
def Client.executeRequest (http : Http) (c : Client) (r : Request) (method endpoint : String) :
    Except String Response :=
  if method = MethodPost then http.Send c.httpClient MethodPost endpoint r
  else http.Send c.httpClient MethodGet endpoint r

/-- The method `unmarshalResponse`: the destination's new value and the error. -/
def Client.unmarshalResponse {α : Type} (js : Json α) (c : Client) (body : Bytes) (dest : α) :
    α × Option ErrorResponse :=
  match js.Unmarshal body dest with
  | (dest, some err) => (dest, some (c.createErrorResponse err "error unmarshalling result"))
  | (dest, none) => (dest, none)

/-- The method `unmarshalErrorResponse`; its result is never nil. -/
def Client.unmarshalErrorResponse {α : Type} (js : Json α) (c : Client) (body : Bytes) :
    ErrorResponse :=
  match js.UnmarshalError body ErrorResponse.zero with
  | (_, some err) => c.createErrorResponse err "error unmarshalling error response"
  | (errResp, none) => errResp

/-- The method `handleResponse`. -/
def Client.handleResponse {α : Type} (js : Json α) (c : Client) (resp : Response) (res : α) :
    α × Option ErrorResponse :=
  if resp.StatusCode = StatusOK then c.unmarshalResponse js resp.Body res
  else (res, some (c.unmarshalErrorResponse js resp.Body))

/-- The request `makeRequest` has built when it calls `executeRequest`: its
first two statements. -/
def Client.makeRequest_request (http : Http) (c : Client) (method : String)
    (params headers : Option (GoMap String)) : Request :=
  let r := (c.httpClient.R).SetQueryParam "api_key" c.apiKey
  c.setRequestHeadersAndParams http r method params headers

/-- The method `makeRequest`: the destination's final value and the error. -/
def Client.makeRequest {α : Type} (http : Http) (js : Json α) (c : Client)
    (method endpoint : String) (params headers : Option (GoMap String)) (res : α) :
    α × Option ErrorResponse :=
  let r := c.makeRequest_request http method params headers
  match c.executeRequest http r method endpoint with
  | .error err => (res, some (c.createErrorResponse err "error making API request"))
  | .ok resp => c.handleResponse js resp res

/-! ## currency.go -/

/-- The struct `CurrencyResponse`; a `[]string` is a list. -/
structure CurrencyResponse where
  Name : String
  Symbol : String
  Network : String
  ContractAddress : String
  HasExtraID : Bool
  ExtraID : String
  Image : String
  WarningsFrom : List String
  WarningsTo : List String
  ValidationAddress : String
  ValidationExtra : String
  AddressExplorer : String
  TxExplorer : String
  ConfirmationsFrom : String
  IsFiat : Bool

/-- The zero value `var res CurrencyResponse`. -/
def CurrencyResponse.zero : CurrencyResponse :=
  { Name := "", Symbol := "", Network := "", ContractAddress := "", HasExtraID := false,
    ExtraID := "", Image := "", WarningsFrom := [], WarningsTo := [], ValidationAddress := "",
    ValidationExtra := "", AddressExplorer := "", TxExplorer := "", ConfirmationsFrom := "",
    IsFiat := false }

/-- The method `GetCurrency`. -/
def Client.GetCurrency (http : Http) (js : Json CurrencyResponse) (c : Client) (symbol : String) :
    CurrencyResponse × Option ErrorResponse :=
  let params := (GoMap.empty : GoMap String).set "symbol" symbol
  c.makeRequest http js MethodGet getCurrencyEndpoint (some params) none CurrencyResponse.zero

/-- The method `GetAllCurrencies`; the nil slice `var res` is the empty list. -/
def Client.GetAllCurrencies (http : Http) (js : Json (List CurrencyResponse)) (c : Client) :
    List CurrencyResponse × Option ErrorResponse :=
  c.makeRequest http js MethodGet getAllCurrenciesEndpoint none none []

/-! ## exchange.go -/

/-- The struct `ExchangeRequest`. -/
structure ExchangeRequest where
  Fixed : Bool
  CurrencyFrom : String
  CurrencyTo : String
  Amount : Int
  AddressTo : String
  ExtraIDTo : String
  UserRefundAddress : String
  UserRefundExtraID : String
  ClientIP : String
  ClientUserAgent : String
  ClientTimezone : String
  ClientLanguage : String

/-- The struct `ExchangesRequest`, over the type `T` of `time.Time` values. -/
structure ExchangesRequest (T : Type) where
  Limit : Int
  Offset : Int
  MinTime : T
  MaxTime : T

/-- The two methods of `time.Time` the code calls: `IsZero` and
`Format(time.RFC3339)`. -/
structure TimeOps (T : Type) where
  IsZero : T → Bool
  FormatRFC3339 : T → String

/-- The anonymous struct of the field `Currencies` of `ExchangeResponse`. -/
structure ExchangeCurrencies where
  CurrencyFromTicker : CurrencyResponse
  CurrencyToTicker : CurrencyResponse

/-- The struct `ExchangeResponse`; its field `Type` is written `Type_`. -/
structure ExchangeResponse where
  ID : String
  Type_ : String
  Timestamp : String
  UpdatedAt : String
  ValidUntil : String
  CurrencyFrom : String
  CurrencyTo : String
  AmountFrom : String
  ExpectedAmount : String
  AmountTo : String
  AddressFrom : String
  AddressTo : String
  ExtraIDFrom : String
  ExtraIDTo : String
  UserRefundAddress : String
  UserRefundExtraID : String
  TxFrom : String
  TxTo : String
  Status : String
  RedirectURL : String
  Currencies : ExchangeCurrencies

/-- The zero value `var res ExchangeResponse`. -/
def ExchangeResponse.zero : ExchangeResponse :=
  { ID := "", Type_ := "", Timestamp := "", UpdatedAt := "", ValidUntil := "", CurrencyFrom := "",
    CurrencyTo := "", AmountFrom := "", ExpectedAmount := "", AmountTo := "", AddressFrom := "",
    AddressTo := "", ExtraIDFrom := "", ExtraIDTo := "", UserRefundAddress := "",
    UserRefundExtraID := "", TxFrom := "", TxTo := "", Status := "", RedirectURL := "",
    Currencies :=
      { CurrencyFromTicker := CurrencyResponse.zero, CurrencyToTicker := CurrencyResponse.zero } }

/-- The struct `RangesRequest`. -/
structure RangesRequest where
  Fixed : Bool
  CurrencyFrom : String
  CurrencyTo : String

/-- The struct `RangesResponse`, over the type `F` of `float64` values. -/
structure RangesResponse (F : Type) where
  Minimum : F
  Maximum : F

/-- What the code uses of `float64`: the zero value and
`strconv.ParseFloat(s, 64)`, which returns a number or an error. -/
structure Float64Ops (F : Type) where
  zero : F
  ParseFloat : String → Except String F

/-- The map `headers` that `CreateExchange` builds (its first statements). -/
def Client.CreateExchange_headers (req : ExchangeRequest) : GoMap String :=
  let headers : GoMap String := GoMap.empty
  let headers := if req.ClientIP ≠ "" then headers.set "x-forwarded-for" req.ClientIP else headers
  let headers :=
    if req.ClientLanguage ≠ "" then headers.set "x-user-language" req.ClientLanguage else headers
  let headers :=
    if req.ClientTimezone ≠ "" then headers.set "x-user-timezone" req.ClientTimezone else headers
  let headers :=
    if req.ClientUserAgent ≠ "" then headers.set "x-user-agent" req.ClientUserAgent else headers
  headers

/-- The map literal `params` of `CreateExchange`. -/
def Client.CreateExchange_params (req : ExchangeRequest) : GoMap String :=
  (((((((GoMap.empty : GoMap String).set "fixed" (fmtBool req.Fixed)).set
    "currency_from" req.CurrencyFrom).set
    "currency_to" req.CurrencyTo).set
    "amount" (fmtInt req.Amount)).set
    "extra_id_to" req.ExtraIDTo).set
    "user_refund_address" req.UserRefundAddress).set
    "user_refund_extra_id" req.UserRefundExtraID

/-- The method `CreateExchange`. -/
def Client.CreateExchange (http : Http) (js : Json ExchangeResponse) (c : Client)
    (req : ExchangeRequest) : ExchangeResponse × Option ErrorResponse :=
  let headers := Client.CreateExchange_headers req
  let params := Client.CreateExchange_params req
  c.makeRequest http js MethodPost createExchangeEndpoint (some params) (some headers)
    ExchangeResponse.zero

/-- The method `GetExchange`. -/
def Client.GetExchange (http : Http) (js : Json ExchangeResponse) (c : Client)
    (exchangeID : String) : ExchangeResponse × Option ErrorResponse :=
  let params := (GoMap.empty : GoMap String).set "id" exchangeID
  c.makeRequest http js MethodGet getExchangeEndpoint (some params) none ExchangeResponse.zero

/-- The map `params` that `GetExchanges` builds. -/
def Client.GetExchanges_params {T : Type} (tm : TimeOps T) (req : ExchangesRequest T) :
    GoMap String :=
  let params : GoMap String := GoMap.empty
  let params := if req.Limit ≠ 0 then params.set "limit" (fmtInt req.Limit) else params
  let params := if req.Offset ≠ 0 then params.set "offset" (fmtInt req.Offset) else params
  let params :=
    if !tm.IsZero req.MinTime then params.set "gte" (tm.FormatRFC3339 req.MinTime) else params
  let params :=
    if !tm.IsZero req.MaxTime then params.set "lte" (tm.FormatRFC3339 req.MinTime) else params
  params

/-- The method `GetExchanges`; the nil slice `var res` is the empty list. -/
def Client.GetExchanges {T : Type} (http : Http) (js : Json (List ExchangeResponse))
    (tm : TimeOps T) (c : Client) (req : ExchangesRequest T) :
    List ExchangeResponse × Option ErrorResponse :=
  let params := Client.GetExchanges_params tm req
  c.makeRequest http js MethodGet getExchangesEndpoint (some params) none []

/-- The map literal `params` of `GetRanges`. -/
def Client.GetRanges_params (req : RangesRequest) : GoMap String :=
  (((GoMap.empty : GoMap String).set "fixed" (fmtBool req.Fixed)).set
    "currency_from" req.CurrencyFrom).set
    "currency_to" req.CurrencyTo

/-- The range post-processing of `GetRanges`: everything after the adapter has
returned a nil error, on the decoded map `res` (nil or not). -/
def Client.GetRanges_postprocess {F : Type} (fl : Float64Ops F) (c : Client)
    (res : Option (GoMap String)) : Option (RangesResponse F) × Option ErrorResponse :=
  match res with
  | none => (none, some (c.createErrorResponse "unknown error" "error fetching ranges"))
  | some res =>
    let result : RangesResponse F := { Minimum := fl.zero, Maximum := fl.zero }
    let afterMin : Except ErrorResponse (RangesResponse F) :=
      match res.get? "min" with
      | none => .ok result
      | some min =>
        match fl.ParseFloat min with
        | .error e => .error (c.createErrorResponse e "error marshalling result (min)")
        | .ok minFl => .ok { result with Minimum := minFl }
    match afterMin with
    | .error err => (none, some err)
    | .ok result =>
      match res.get? "max" with
      | none => (some result, none)
      | some max =>
        match fl.ParseFloat max with
        | .error e => (none, some (c.createErrorResponse e "error marshalling result (man)"))
        | .ok maxFl => (some { result with Maximum := maxFl }, none)

/-- The method `GetRanges`; the destination `var res map[string]string` starts
nil. -/
def Client.GetRanges {F : Type} (http : Http) (js : Json (Option (GoMap String)))
    (fl : Float64Ops F) (c : Client) (req : RangesRequest) :
    Option (RangesResponse F) × Option ErrorResponse :=
  let params := Client.GetRanges_params req
  match c.makeRequest http js MethodGet getRangesEndpoint (some params) none none with
  | (_, some err) => (none, some err)
  | (res, none) => c.GetRanges_postprocess fl res

/-! ## Sample library instances

Concrete transports, decoders and number parsers at which the theorems below
are instantiated. -/

/-- A transport whose every call returns `out`; header keys are kept as
written. -/
def sampleHttp (out : Except String Response) : Http :=
  { CanonicalMIMEHeaderKey := fun key => key, Send := fun _ _ _ _ => out }

/-- A decoder that stores `decoded` in a success destination and `decodedError`
in an error destination, each with the given error. -/
def sampleJson {α : Type} (decoded : α × Option String)
    (decodedError : ErrorResponse × Option String) : Json α :=
  { Unmarshal := fun _ _ => decoded, UnmarshalError := fun _ _ => decodedError }

/-- A number parser over the naturals that accepts non-empty strings of decimal
digits and rejects every other text with the message of `strconv.ParseFloat`. -/
def sampleFloat64 : Float64Ops Nat :=
  { zero := 0
    ParseFloat := fun s =>
      if s.data ≠ [] ∧ s.data.all Char.isDigit = true then
        .ok (s.data.foldl (fun n ch => 10 * n + (ch.toNat - 48)) 0)
      else .error ("strconv.ParseFloat: parsing \"" ++ s ++ "\": invalid syntax") }

/-- A clock over the naturals: the instant `0` is the zero time and an instant
is formatted as its decimal numeral. -/
def sampleTime : TimeOps Nat :=
  { IsZero := fun t => t == 0, FormatRFC3339 := fun t => toString t }

/-! ## Lemmas on Go maps -/

theorem GoMap.get?_empty {β : Type} (k : String) : (GoMap.empty : GoMap β).get? k = none := rfl

theorem GoMap.lookup_eraseKey_ne {β : Type} (k k' : String) (h : k' ≠ k)
    (l : List (String × β)) : (GoMap.eraseKey k l).lookup k' = l.lookup k' := by
  induction l with
  | nil => rfl
  | cons p t ih =>
    obtain ⟨a, b⟩ := p
    by_cases hak : a = k
    · subst hak
      have h1 : (k' == a) = false := by simpa using h
      simp only [GoMap.eraseKey, List.lookup_cons, h1] at ih ⊢
      simpa [List.filter_cons] using ih
    · by_cases hk' : k' = a
      · subst hk'
        simp [GoMap.eraseKey, List.filter_cons, hak, List.lookup_cons]
      · have h1 : (k' == a) = false := by simpa using hk'
        simp only [GoMap.eraseKey, List.lookup_cons, h1] at ih ⊢
        simpa [List.filter_cons, hak, List.lookup_cons, h1] using ih

theorem GoMap.get?_set_self {β : Type} (m : GoMap β) (k : String) (v : β) :
    (m.set k v).get? k = some v := by
  simp [GoMap.get?, GoMap.set, List.lookup_cons]

theorem GoMap.get?_set_ne {β : Type} (m : GoMap β) (k k' : String) (v : β) (h : k' ≠ k) :
    (m.set k v).get? k' = m.get? k' := by
  have h1 : (k' == k) = false := by simpa using h
  simp only [GoMap.get?, GoMap.set, List.lookup_cons, h1]
  exact GoMap.lookup_eraseKey_ne k k' h m.entries

theorem GoMap.lookup_eq_none_of_not_mem {β : Type} (k : String) (l : List (String × β))
    (h : k ∉ l.map Prod.fst) : l.lookup k = none := by
  induction l with
  | nil => rfl
  | cons p t ih =>
    obtain ⟨a, b⟩ := p
    simp only [List.map_cons, List.mem_cons, not_or] at h
    have h1 : (k == a) = false := by simpa using h.1
    simp only [List.lookup_cons, h1]
    exact ih h.2

/-! ## Lemmas on the request setters -/

theorem Request.foldl_SetQueryParam_get? (l : List (String × String))
    (hl : (l.map Prod.fst).Nodup) (r : Request) (k : String) :
    (l.foldl (fun r p => r.SetQueryParam p.1 p.2) r).QueryParam.get? k =
      match l.lookup k with
      | some v => some [v]
      | none => r.QueryParam.get? k := by
  induction l generalizing r with
  | nil => rfl
  | cons p t ih =>
    obtain ⟨a, b⟩ := p
    rw [List.map_cons, List.nodup_cons] at hl
    rw [List.foldl_cons, ih hl.2]
    by_cases hka : k = a
    · subst hka
      rw [GoMap.lookup_eq_none_of_not_mem k t hl.1]
      simp [List.lookup_cons, Request.SetQueryParam, Values.Set, GoMap.get?_set_self]
    · have h1 : (k == a) = false := by simpa using hka
      simp only [List.lookup_cons, h1, Request.SetQueryParam, Values.Set]
      rw [GoMap.get?_set_ne _ _ _ _ hka]

theorem Request.foldl_SetQueryParam_Body (l : List (String × String)) (r : Request) :
    (l.foldl (fun r p => r.SetQueryParam p.1 p.2) r).Body = r.Body := by
  induction l generalizing r with
  | nil => rfl
  | cons p t ih => rw [List.foldl_cons, ih]; rfl

theorem Request.foldl_SetHeader_QueryParam (http : Http) (l : List (String × String))
    (r : Request) :
    (l.foldl (fun r p => r.SetHeader http p.1 p.2) r).QueryParam = r.QueryParam := by
  induction l generalizing r with
  | nil => rfl
  | cons p t ih => rw [List.foldl_cons, ih]; rfl

theorem Request.foldl_SetHeader_Body (http : Http) (l : List (String × String)) (r : Request) :
    (l.foldl (fun r p => r.SetHeader http p.1 p.2) r).Body = r.Body := by
  induction l generalizing r with
  | nil => rfl
  | cons p t ih => rw [List.foldl_cons, ih]; rfl

/-- With a nil parameter mapping only the headers are written: the query
parameters and the body stay as they were. -/
theorem Client.setRequestHeadersAndParams_nil (http : Http) (c : Client) (r : Request)
    (method : String) (headers : Option (GoMap String)) :
    (c.setRequestHeadersAndParams http r method none headers).QueryParam = r.QueryParam ∧
    (c.setRequestHeadersAndParams http r method none headers).Body = r.Body := by
  cases headers with
  | none => exact ⟨rfl, rfl⟩
  | some hs =>
    exact ⟨Request.foldl_SetHeader_QueryParam http _ r, Request.foldl_SetHeader_Body http _ r⟩

/-- With a non-nil parameter mapping the parameters are placed after the
headers have been written. -/
theorem Client.setRequestHeadersAndParams_some (http : Http) (c : Client) (r : Request)
    (method : String) (ps : GoMap String) (headers : Option (GoMap String)) :
    c.setRequestHeadersAndParams http r method (some ps) headers =
      if method = MethodPost then (c.setRequestHeadersAndParams http r method none headers).SetBody ps
      else (c.setRequestHeadersAndParams http r method none headers).SetQueryParams ps := rfl

/-! ## The API key on the request (C1) -/

/-- The value of `api_key` in the request `makeRequest` builds, for any verb
and mappings: always a single value. -/
theorem Client.makeRequest_request_get?_api_key (http : Http) (c : Client) (method : String)
    (params headers : Option (GoMap String)) :
    (c.makeRequest_request http method params headers).QueryParam.get? "api_key" =
      some [if method = MethodPost then c.apiKey
            else match params.bind (fun ps => ps.get? "api_key") with
              | some v => v
              | none => c.apiKey] := by
  have hnil := (Client.setRequestHeadersAndParams_nil http c
    ((c.httpClient.R).SetQueryParam "api_key" c.apiKey) method headers).1
  have hkey : ((c.httpClient.R).SetQueryParam "api_key" c.apiKey).QueryParam.get? "api_key" =
      some [c.apiKey] := by
    simp [Request.SetQueryParam, Values.Set, GoMap.get?_set_self]
  cases params with
  | none =>
    simp only [Client.makeRequest_request, Option.bind, hnil, hkey, ite_self]
  | some ps =>
    simp only [Client.makeRequest_request, Client.setRequestHeadersAndParams_some, Option.bind]
    by_cases hm : method = MethodPost
    · simp only [hm, if_true, Request.SetBody]
      have hnil' := (Client.setRequestHeadersAndParams_nil http c
        ((c.httpClient.R).SetQueryParam "api_key" c.apiKey) MethodPost headers).1
      rw [hnil', hkey]
    · simp only [hm, if_false, Request.SetQueryParams]
      rw [Request.foldl_SetQueryParam_get? _ ps.nodupKeys, hnil, hkey]
      simp only [GoMap.get?]
      cases ps.entries.lookup "api_key" <;> rfl

/-- C1: the request `makeRequest` builds has the query parameter `api_key`
exactly once (a single value), and that value is the API key the client was
constructed with.  This holds for every client, verb and header mapping (nil
included) and every parameter mapping that is nil or has no `api_key` entry of
its own, and for a POST whatever the mapping; and it holds for the request of
each of the six calls of `makeRequest` in the code (`GetCurrency`,
`GetAllCurrencies`, `CreateExchange`, `GetExchange`, `GetExchanges`,
`GetRanges`), for every argument of theirs: `makeRequest` is unexported and no
caller passes an `api_key` entry. -/
theorem makeRequest_api_key_once {T : Type} (http : Http) (tm : TimeOps T) (c : Client) :
    (∀ (method : String) (params headers : Option (GoMap String)),
      (method = MethodPost ∨ params = none ∨
        ∃ ps, params = some ps ∧ ps.get? "api_key" = none) →
      (c.makeRequest_request http method params headers).QueryParam.get? "api_key"
        = some [c.apiKey]) ∧
    (∀ symbol : String,
      (c.makeRequest_request http MethodGet
        (some ((GoMap.empty : GoMap String).set "symbol" symbol)) none).QueryParam.get? "api_key"
        = some [c.apiKey]) ∧
    ((c.makeRequest_request http MethodGet none none).QueryParam.get? "api_key"
        = some [c.apiKey]) ∧
    (∀ req : ExchangeRequest,
      (c.makeRequest_request http MethodPost (some (Client.CreateExchange_params req))
        (some (Client.CreateExchange_headers req))).QueryParam.get? "api_key"
        = some [c.apiKey]) ∧
    (∀ exchangeID : String,
      (c.makeRequest_request http MethodGet
        (some ((GoMap.empty : GoMap String).set "id" exchangeID)) none).QueryParam.get? "api_key"
        = some [c.apiKey]) ∧
    (∀ req : ExchangesRequest T,
      (c.makeRequest_request http MethodGet (some (Client.GetExchanges_params tm req))
        none).QueryParam.get? "api_key" = some [c.apiKey]) ∧
    (∀ req : RangesRequest,
      (c.makeRequest_request http MethodGet (some (Client.GetRanges_params req))
        none).QueryParam.get? "api_key" = some [c.apiKey]) := by
  have hgen : ∀ (method : String) (params headers : Option (GoMap String)),
      (method = MethodPost ∨ params = none ∨
        ∃ ps, params = some ps ∧ ps.get? "api_key" = none) →
      (c.makeRequest_request http method params headers).QueryParam.get? "api_key"
        = some [c.apiKey] := by
    intro method params headers h
    rw [Client.makeRequest_request_get?_api_key]
    rcases h with h | h | ⟨ps, h, hps⟩
    · rw [if_pos h]
    · subst h
      simp only [Option.bind, ite_self]
    · subst h
      simp only [Option.bind, hps, ite_self]
  refine ⟨hgen, ?_, ?_, ?_, ?_, ?_, ?_⟩
  · intro symbol
    refine hgen _ _ _ (Or.inr (Or.inr ⟨_, rfl, ?_⟩))
    simp [GoMap.get?_set_ne, GoMap.get?_empty]
  · exact hgen _ _ _ (Or.inr (Or.inl rfl))
  · intro req
    exact hgen _ _ _ (Or.inl rfl)
  · intro exchangeID
    refine hgen _ _ _ (Or.inr (Or.inr ⟨_, rfl, ?_⟩))
    simp [GoMap.get?_set_ne, GoMap.get?_empty]
  · intro req
    refine hgen _ _ _ (Or.inr (Or.inr ⟨_, rfl, ?_⟩))
    unfold Client.GetExchanges_params
    by_cases h1 : req.Limit = 0 <;> by_cases h2 : req.Offset = 0 <;>
      cases h3 : tm.IsZero req.MinTime <;> cases h4 : tm.IsZero req.MaxTime <;>
      simp [h1, h2, GoMap.get?_set_ne, GoMap.get?_empty]
  · intro req
    refine hgen _ _ _ (Or.inr (Or.inr ⟨_, rfl, ?_⟩))
    simp [Client.GetRanges_params, GoMap.get?_set_ne, GoMap.get?_empty]

/-- C1 at concrete calls: for the client built by `New "secret"`, the request of
`GetCurrency("btc")` and the request of a `CreateExchange` both carry
`api_key = "secret"`, once. -/
theorem makeRequest_api_key_once_witness :
    ((New "secret").makeRequest_request (sampleHttp (.error "down")) MethodGet
        (some ((GoMap.empty : GoMap String).set "symbol" "btc")) none).QueryParam.get? "api_key"
      = some ["secret"] ∧
    ((New "secret").makeRequest_request (sampleHttp (.error "down")) MethodPost
        (some (Client.CreateExchange_params
          ⟨true, "btc", "eth", 2, "bc1qdest", "", "", "", "10.0.0.1", "", "", ""⟩))
        (some (Client.CreateExchange_headers
          ⟨true, "btc", "eth", 2, "bc1qdest", "", "", "", "10.0.0.1", "", "", ""⟩))).QueryParam.get?
        "api_key" = some ["secret"] :=
  ⟨(makeRequest_api_key_once (sampleHttp (.error "down")) sampleTime (New "secret")).2.1 "btc",
   (makeRequest_api_key_once (sampleHttp (.error "down")) sampleTime (New "secret")).2.2.2.1
      ⟨true, "btc", "eth", 2, "bc1qdest", "", "", "", "10.0.0.1", "", "", ""⟩⟩

/-! ## Parameter placement by verb (C2) -/

/-- C2: for every non-nil parameter mapping `ps`, `setRequestHeadersAndParams`
places it by the verb.  For POST the request body becomes the whole mapping and
the query parameters are exactly those the request had before.  For any other
verb, GET in particular, every entry of the mapping is a query parameter with
that single value and the body is what it was before (unset, in `makeRequest`,
where the request is fresh). -/
theorem setRequestHeadersAndParams_placement (http : Http) (c : Client) (r : Request)
    (method : String) (ps : GoMap String) (headers : Option (GoMap String)) :
    (method = MethodPost →
      (c.setRequestHeadersAndParams http r method (some ps) headers).Body = some ps ∧
      (c.setRequestHeadersAndParams http r method (some ps) headers).QueryParam = r.QueryParam) ∧
    (method ≠ MethodPost →
      (∀ k v, ps.get? k = some v →
        (c.setRequestHeadersAndParams http r method (some ps) headers).QueryParam.get? k
          = some [v]) ∧
      (c.setRequestHeadersAndParams http r method (some ps) headers).Body = r.Body) ∧
    (MethodGet ≠ MethodPost ∧
      (c.makeRequest_request http MethodGet (some ps) headers).Body = none) := by
  have hnil := Client.setRequestHeadersAndParams_nil http c r method headers
  refine ⟨?_, ?_, by decide, ?_⟩
  · intro hm
    rw [Client.setRequestHeadersAndParams_some, if_pos hm]
    exact ⟨rfl, hnil.1⟩
  · intro hm
    rw [Client.setRequestHeadersAndParams_some, if_neg hm]
    refine ⟨?_, ?_⟩
    · intro k v hkv
      rw [Request.SetQueryParams, Request.foldl_SetQueryParam_get? _ ps.nodupKeys]
      rw [GoMap.get?] at hkv
      rw [hkv]
    · rw [Request.SetQueryParams, Request.foldl_SetQueryParam_Body]
      exact hnil.2
  · have hget : MethodGet ≠ MethodPost := by decide
    rw [Client.makeRequest_request, Client.setRequestHeadersAndParams_some, if_neg hget,
      Request.SetQueryParams, Request.foldl_SetQueryParam_Body]
    exact (Client.setRequestHeadersAndParams_nil http c _ MethodGet headers).2

/-- C2 at a concrete request: the mapping `{"id": "x1"}` goes to the body under
POST and to the query string under GET. -/
theorem setRequestHeadersAndParams_placement_witness :
    ((New "k").setRequestHeadersAndParams (sampleHttp (.error "unused")) ((New "k").httpClient.R)
        MethodPost (some ((GoMap.empty : GoMap String).set "id" "x1")) none).Body
      = some ((GoMap.empty : GoMap String).set "id" "x1") ∧
    ((New "k").setRequestHeadersAndParams (sampleHttp (.error "unused")) ((New "k").httpClient.R)
        MethodGet (some ((GoMap.empty : GoMap String).set "id" "x1")) none).QueryParam.get? "id"
      = some ["x1"] :=
  ⟨((setRequestHeadersAndParams_placement (sampleHttp (.error "unused")) (New "k")
      ((New "k").httpClient.R) MethodPost ((GoMap.empty : GoMap String).set "id" "x1") none).1
      rfl).1,
   ((setRequestHeadersAndParams_placement (sampleHttp (.error "unused")) (New "k")
      ((New "k").httpClient.R) MethodGet ((GoMap.empty : GoMap String).set "id" "x1") none).2.1
      (by decide)).1 "id" "x1" (GoMap.get?_set_self _ _ _)⟩

/-! ## Response handling (C3, C4) -/

theorem Client.makeRequest_of_error {α : Type} (http : Http) (js : Json α) (c : Client)
    (method endpoint : String) (params headers : Option (GoMap String)) (res : α) (err : String)
    (h : c.executeRequest http (c.makeRequest_request http method params headers) method endpoint
      = .error err) :
    c.makeRequest http js method endpoint params headers res =
      (res, some (c.createErrorResponse err "error making API request")) := by
  simp only [Client.makeRequest, h]

theorem Client.makeRequest_of_ok {α : Type} (http : Http) (js : Json α) (c : Client)
    (method endpoint : String) (params headers : Option (GoMap String)) (res : α)
    (resp : Response)
    (h : c.executeRequest http (c.makeRequest_request http method params headers) method endpoint
      = .ok resp) :
    c.makeRequest http js method endpoint params headers res = c.handleResponse js resp res := by
  simp only [Client.makeRequest, h]

theorem Client.handleResponse_ok {α : Type} (js : Json α) (c : Client) (resp : Response)
    (res : α) (hs : resp.StatusCode = StatusOK) :
    c.handleResponse js resp res =
      ((js.Unmarshal resp.Body res).1,
        (js.Unmarshal resp.Body res).2.map
          (fun err => c.createErrorResponse err "error unmarshalling result")) := by
  rw [Client.handleResponse, if_pos hs, Client.unmarshalResponse]
  rcases js.Unmarshal resp.Body res with ⟨d, err⟩
  cases err <;> rfl

theorem Client.handleResponse_not_ok {α : Type} (js : Json α) (c : Client) (resp : Response)
    (res : α) (hs : resp.StatusCode ≠ StatusOK) :
    c.handleResponse js resp res = (res, some (c.unmarshalErrorResponse js resp.Body)) := by
  rw [Client.handleResponse, if_neg hs]

/-- C3: for every response whose status is not 200 (every non-success status
is such a status) and whose body `json.Unmarshal` decodes into the error schema
without error, `handleResponse` returns a non-nil error whose five fields are
the decoded ones, and the destination is returned as it was passed in; when
`makeRequest` receives that response, the caller gets its destination back
unchanged, which is the zero value every wrapper passes. -/
theorem handleResponse_error_status {α : Type} (js : Json α) (c : Client) (resp : Response)
    (res : α) (hstatus : resp.StatusCode ≠ StatusOK)
    (hdecode : (js.UnmarshalError resp.Body ErrorResponse.zero).2 = none) :
    (c.handleResponse js resp res).1 = res ∧
    (∃ e, (c.handleResponse js resp res).2 = some e ∧
      e.IsAPIError = (js.UnmarshalError resp.Body ErrorResponse.zero).1.IsAPIError ∧
      e.Code = (js.UnmarshalError resp.Body ErrorResponse.zero).1.Code ∧
      e.Error = (js.UnmarshalError resp.Body ErrorResponse.zero).1.Error ∧
      e.Description = (js.UnmarshalError resp.Body ErrorResponse.zero).1.Description ∧
      e.TraceID = (js.UnmarshalError resp.Body ErrorResponse.zero).1.TraceID) ∧
    (∀ (http : Http) (method endpoint : String) (params headers : Option (GoMap String)),
      c.executeRequest http (c.makeRequest_request http method params headers) method endpoint
          = .ok resp →
        c.makeRequest http js method endpoint params headers res =
          (res, some (js.UnmarshalError resp.Body ErrorResponse.zero).1)) := by
  have hun : c.unmarshalErrorResponse js resp.Body =
      (js.UnmarshalError resp.Body ErrorResponse.zero).1 := by
    unfold Client.unmarshalErrorResponse
    rcases hd : js.UnmarshalError resp.Body ErrorResponse.zero with ⟨d, err⟩
    rw [hd] at hdecode
    simp only at hdecode
    subst hdecode
    rfl
  have hh : c.handleResponse js resp res =
      (res, some (js.UnmarshalError resp.Body ErrorResponse.zero).1) := by
    rw [Client.handleResponse, if_neg hstatus, hun]
  refine ⟨by rw [hh], ⟨_, by rw [hh], rfl, rfl, rfl, rfl, rfl⟩, ?_⟩
  intro http method endpoint params headers hexec
  simp only [Client.makeRequest, hexec, hh]

/-- C3 at a concrete response: status 404 with a body that decodes to the error
`{true, 404, "not_found", "no such exchange", "t-1"}`; the destination keeps its
value 0. -/
theorem handleResponse_error_status_witness :
    (404 : Int) ≠ StatusOK ∧
    ((New "k").handleResponse
        (sampleJson ((7 : Nat), none) (⟨true, 404, "not_found", "no such exchange", "t-1"⟩, none))
        ⟨404, []⟩ (0 : Nat)).1 = 0 ∧
    ∃ e, ((New "k").handleResponse
        (sampleJson ((7 : Nat), none) (⟨true, 404, "not_found", "no such exchange", "t-1"⟩, none))
        ⟨404, []⟩ (0 : Nat)).2 = some e ∧
      e.IsAPIError = true ∧ e.Code = 404 ∧ e.Error = "not_found" ∧
      e.Description = "no such exchange" ∧ e.TraceID = "t-1" :=
  ⟨by decide,
   (handleResponse_error_status
      (sampleJson ((7 : Nat), none) (⟨true, 404, "not_found", "no such exchange", "t-1"⟩, none))
      (New "k") ⟨404, []⟩ (0 : Nat) (by decide) rfl).1,
   (handleResponse_error_status
      (sampleJson ((7 : Nat), none) (⟨true, 404, "not_found", "no such exchange", "t-1"⟩, none))
      (New "k") ⟨404, []⟩ (0 : Nat) (by decide) rfl).2.1⟩

/-- C4, as the code has it: only status 200 is the success status.  For every
response with status 200 whose body `json.Unmarshal` decodes into the
destination without error, `handleResponse` returns the decoded destination and
a nil error.  For every other status, 201 to 299 included, it returns a non-nil
error and the destination as it was passed in.  The outcome of `makeRequest` is
always one of two: a nil error with the destination decoded from a status-200
body, or a non-nil error; in the second case the destination is the one passed
in unless a status-200 body failed to decode, where it is what `json.Unmarshal`
left. -/
theorem handleResponse_outcome {α : Type} (http : Http) (js : Json α) (c : Client)
    (resp : Response) (res : α) (method endpoint : String)
    (params headers : Option (GoMap String)) :
    (resp.StatusCode = StatusOK → (js.Unmarshal resp.Body res).2 = none →
      c.handleResponse js resp res = ((js.Unmarshal resp.Body res).1, none)) ∧
    (resp.StatusCode ≠ StatusOK →
      (c.handleResponse js resp res).1 = res ∧ (c.handleResponse js resp res).2 ≠ none) ∧
    (((c.makeRequest http js method endpoint params headers res).2 = none ∧
        ∃ resp', c.executeRequest http (c.makeRequest_request http method params headers)
            method endpoint = .ok resp' ∧
          resp'.StatusCode = StatusOK ∧ (js.Unmarshal resp'.Body res).2 = none ∧
          (c.makeRequest http js method endpoint params headers res).1
            = (js.Unmarshal resp'.Body res).1) ∨
      ((c.makeRequest http js method endpoint params headers res).2 ≠ none ∧
        ((c.makeRequest http js method endpoint params headers res).1 = res ∨
          ∃ resp', c.executeRequest http (c.makeRequest_request http method params headers)
              method endpoint = .ok resp' ∧
            resp'.StatusCode = StatusOK ∧ (js.Unmarshal resp'.Body res).2 ≠ none ∧
            (c.makeRequest http js method endpoint params headers res).1
              = (js.Unmarshal resp'.Body res).1))) := by
  refine ⟨?_, ?_, ?_⟩
  · intro hs hd
    rw [Client.handleResponse_ok js c resp res hs, hd]
    rfl
  · intro hs
    rw [Client.handleResponse_not_ok js c resp res hs]
    exact ⟨rfl, by simp⟩
  · cases hexec : c.executeRequest http (c.makeRequest_request http method params headers)
        method endpoint with
    | error err =>
      rw [Client.makeRequest_of_error http js c method endpoint params headers res err hexec]
      exact Or.inr ⟨by simp, Or.inl rfl⟩
    | ok resp' =>
      rw [Client.makeRequest_of_ok http js c method endpoint params headers res resp' hexec]
      by_cases hs : resp'.StatusCode = StatusOK
      · rw [Client.handleResponse_ok js c resp' res hs]
        cases hu : (js.Unmarshal resp'.Body res).2 with
        | none => exact Or.inl ⟨rfl, resp', rfl, hs, hu, rfl⟩
        | some e => exact Or.inr ⟨by simp, Or.inr ⟨resp', rfl, hs, by simp [hu], rfl⟩⟩
      · rw [Client.handleResponse_not_ok js c resp' res hs]
        exact Or.inr ⟨by simp, Or.inl rfl⟩

/-- C4 as stated fails at status 201, a 2xx code: the body decodes into the
destination shape (to the value 7), yet `handleResponse` does not decode it: the
destination keeps its value 0 and the error is non-nil. -/
theorem handleResponse_status_201_is_error :
    ((sampleJson ((7 : Nat), none) (ErrorResponse.zero, none)).Unmarshal [] 0 = (7, none)) ∧
    (New "k").handleResponse (sampleJson ((7 : Nat), none) (ErrorResponse.zero, none))
        ⟨201, []⟩ (0 : Nat) = (0, some ErrorResponse.zero) ∧
    (New "k").handleResponse (sampleJson ((7 : Nat), none) (ErrorResponse.zero, none))
        ⟨201, []⟩ (0 : Nat) ≠ (7, none) := by
  refine ⟨rfl, rfl, ?_⟩
  intro h
  have h1 : ((New "k").handleResponse (sampleJson ((7 : Nat), none) (ErrorResponse.zero, none))
      ⟨201, []⟩ (0 : Nat)).1 = 7 := by rw [h]
  exact absurd h1 (by decide)

/-- C4 at a concrete response: status 200 with a body that decodes to 7. -/
theorem handleResponse_outcome_witness :
    (New "k").handleResponse (sampleJson ((7 : Nat), none) (ErrorResponse.zero, none))
      ⟨200, []⟩ (0 : Nat) = (7, none) :=
  (handleResponse_outcome (sampleHttp (.ok ⟨200, []⟩))
    (sampleJson ((7 : Nat), none) (ErrorResponse.zero, none)) (New "k") ⟨200, []⟩ (0 : Nat)
    MethodGet getCurrencyEndpoint none none).1 rfl rfl

/-! ## The headers of exchange creation (C5) -/

/-- C5: for every `ExchangeRequest`, the header mapping `CreateExchange` passes
to `makeRequest` holds `x-forwarded-for`, `x-user-language`, `x-user-timezone`
and `x-user-agent` exactly when `ClientIP`, `ClientLanguage`, `ClientTimezone`
and `ClientUserAgent` respectively are non-empty, each with that field's value;
it holds no other key; and when all four fields are empty it is the empty
mapping. -/
theorem CreateExchange_headers_spec (http : Http) (js : Json ExchangeResponse) (c : Client)
    (req : ExchangeRequest) :
    c.CreateExchange http js req =
        c.makeRequest http js MethodPost createExchangeEndpoint
          (some (Client.CreateExchange_params req)) (some (Client.CreateExchange_headers req))
          ExchangeResponse.zero ∧
    (Client.CreateExchange_headers req).get? "x-forwarded-for" =
        (if req.ClientIP = "" then none else some req.ClientIP) ∧
    (Client.CreateExchange_headers req).get? "x-user-language" =
        (if req.ClientLanguage = "" then none else some req.ClientLanguage) ∧
    (Client.CreateExchange_headers req).get? "x-user-timezone" =
        (if req.ClientTimezone = "" then none else some req.ClientTimezone) ∧
    (Client.CreateExchange_headers req).get? "x-user-agent" =
        (if req.ClientUserAgent = "" then none else some req.ClientUserAgent) ∧
    (∀ k : String, k ≠ "x-forwarded-for" → k ≠ "x-user-language" → k ≠ "x-user-timezone" →
        k ≠ "x-user-agent" → (Client.CreateExchange_headers req).get? k = none) ∧
    (req.ClientIP = "" → req.ClientLanguage = "" → req.ClientTimezone = "" →
        req.ClientUserAgent = "" → Client.CreateExchange_headers req = GoMap.empty) := by
  refine ⟨rfl, ?_, ?_, ?_, ?_, ?_, ?_⟩
  · unfold Client.CreateExchange_headers
    by_cases h1 : req.ClientIP = "" <;> by_cases h2 : req.ClientLanguage = "" <;>
      by_cases h3 : req.ClientTimezone = "" <;> by_cases h4 : req.ClientUserAgent = "" <;>
      simp [h1, h2, h3, h4, GoMap.get?_set_self, GoMap.get?_set_ne, GoMap.get?_empty]
  · unfold Client.CreateExchange_headers
    by_cases h1 : req.ClientIP = "" <;> by_cases h2 : req.ClientLanguage = "" <;>
      by_cases h3 : req.ClientTimezone = "" <;> by_cases h4 : req.ClientUserAgent = "" <;>
      simp [h1, h2, h3, h4, GoMap.get?_set_self, GoMap.get?_set_ne, GoMap.get?_empty]
  · unfold Client.CreateExchange_headers
    by_cases h1 : req.ClientIP = "" <;> by_cases h2 : req.ClientLanguage = "" <;>
      by_cases h3 : req.ClientTimezone = "" <;> by_cases h4 : req.ClientUserAgent = "" <;>
      simp [h1, h2, h3, h4, GoMap.get?_set_self, GoMap.get?_set_ne, GoMap.get?_empty]
  · unfold Client.CreateExchange_headers
    by_cases h1 : req.ClientIP = "" <;> by_cases h2 : req.ClientLanguage = "" <;>
      by_cases h3 : req.ClientTimezone = "" <;> by_cases h4 : req.ClientUserAgent = "" <;>
      simp [h1, h2, h3, h4, GoMap.get?_set_self, GoMap.get?_set_ne, GoMap.get?_empty]
  · intro k k1 k2 k3 k4
    unfold Client.CreateExchange_headers
    by_cases h1 : req.ClientIP = "" <;> by_cases h2 : req.ClientLanguage = "" <;>
      by_cases h3 : req.ClientTimezone = "" <;> by_cases h4 : req.ClientUserAgent = "" <;>
      simp [h1, h2, h3, h4, k1, k2, k3, k4, GoMap.get?_set_ne, GoMap.get?_empty]
  · intro h1 h2 h3 h4
    simp [Client.CreateExchange_headers, h1, h2, h3, h4]

/-- C5 at a concrete request: only the currencies, the amount and the client
language are set; the one header is `x-user-language`. -/
theorem CreateExchange_headers_spec_witness :
    (Client.CreateExchange_headers
        ⟨false, "btc", "eth", 1, "", "", "", "", "", "", "", "en"⟩).get? "x-user-language"
      = some "en" ∧
    (Client.CreateExchange_headers
        ⟨false, "btc", "eth", 1, "", "", "", "", "", "", "", "en"⟩).get? "x-forwarded-for"
      = none :=
  ⟨(CreateExchange_headers_spec (sampleHttp (.error "down"))
      (sampleJson (ExchangeResponse.zero, none) (ErrorResponse.zero, none)) (New "k")
      ⟨false, "btc", "eth", 1, "", "", "", "", "", "", "", "en"⟩).2.2.1,
   (CreateExchange_headers_spec (sampleHttp (.error "down"))
      (sampleJson (ExchangeResponse.zero, none) (ErrorResponse.zero, none)) (New "k")
      ⟨false, "btc", "eth", 1, "", "", "", "", "", "", "", "en"⟩).2.1⟩

/-! ## Range post-processing (C6, C7) -/

theorem Client.GetRanges_postprocess_min_error {F : Type} (fl : Float64Ops F) (c : Client)
    (res : GoMap String) (min e : String) (hmin : res.get? "min" = some min)
    (he : fl.ParseFloat min = .error e) :
    c.GetRanges_postprocess fl (some res) =
      (none, some (c.createErrorResponse e "error marshalling result (min)")) := by
  simp only [Client.GetRanges_postprocess, hmin, he]

theorem Client.GetRanges_postprocess_max_error {F : Type} (fl : Float64Ops F) (c : Client)
    (res : GoMap String) (max e : String)
    (hmin : res.get? "min" = none ∨ ∃ m x, res.get? "min" = some m ∧ fl.ParseFloat m = .ok x)
    (hmax : res.get? "max" = some max) (he : fl.ParseFloat max = .error e) :
    c.GetRanges_postprocess fl (some res) =
      (none, some (c.createErrorResponse e "error marshalling result (man)")) := by
  rcases hmin with hmin | ⟨m, x, hmin, hx⟩
  · simp only [Client.GetRanges_postprocess, hmin, hmax, he]
  · simp only [Client.GetRanges_postprocess, hmin, hx, hmax, he]

/-- C6, what the code does for the key `max`: when `max` is present and
`strconv.ParseFloat` rejects it with the error `e`, and `min` is absent or
numeric, the range result is nil and the local error has `is_api_error` false
and the description `"error marshalling result (man): " ++ e`: the context names
`(man)`, where the claim (and the `min` branch, with `(min)`) has `(max)`. -/
theorem GetRanges_postprocess_max_description {F : Type} (fl : Float64Ops F) (c : Client)
    (res : GoMap String) (max e : String)
    (hmin : res.get? "min" = none ∨ ∃ m x, res.get? "min" = some m ∧ fl.ParseFloat m = .ok x)
    (hmax : res.get? "max" = some max) (he : fl.ParseFloat max = .error e) :
    c.GetRanges_postprocess fl (some res) =
      (none, some { IsAPIError := false, Code := 0, Error := "",
                    Description := "error marshalling result (man): " ++ e, TraceID := "" }) :=
  Client.GetRanges_postprocess_max_error fl c res max e hmin hmax he

set_option maxRecDepth 8000 in
/-- C6 at the failing input: the decoded response `{"max": "abc"}` gives the
description `error marshalling result (man): strconv.ParseFloat: parsing "abc":
invalid syntax`, in which the text `error marshalling result (max)` does not
occur, while `{"min": "abc"}` gives the same with `(min)`. -/
theorem GetRanges_postprocess_max_description_witness :
    (New "k").GetRanges_postprocess sampleFloat64
        (some ((GoMap.empty : GoMap String).set "max" "abc")) =
      (none, some { IsAPIError := false, Code := 0, Error := "",
                    Description := "error marshalling result (man): " ++
                      "strconv.ParseFloat: parsing \"abc\": invalid syntax",
                    TraceID := "" }) ∧
    ¬ ("error marshalling result (max)".data <:+:
        ("error marshalling result (man): " ++
          "strconv.ParseFloat: parsing \"abc\": invalid syntax").data) ∧
    (New "k").GetRanges_postprocess sampleFloat64
        (some ((GoMap.empty : GoMap String).set "min" "abc")) =
      (none, some { IsAPIError := false, Code := 0, Error := "",
                    Description := "error marshalling result (min): " ++
                      "strconv.ParseFloat: parsing \"abc\": invalid syntax",
                    TraceID := "" }) :=
  ⟨GetRanges_postprocess_max_description sampleFloat64 (New "k")
      ((GoMap.empty : GoMap String).set "max" "abc") "abc"
      "strconv.ParseFloat: parsing \"abc\": invalid syntax" (Or.inl (by decide)) (by decide)
      rfl,
   by decide,
   Client.GetRanges_postprocess_min_error sampleFloat64 (New "k")
      ((GoMap.empty : GoMap String).set "min" "abc") "abc"
      "strconv.ParseFloat: parsing \"abc\": invalid syntax" (by decide) rfl⟩

/-- C7, as the code has it: when the adapter succeeds and the decoded range
response is nil, `GetRanges` returns a nil range result and a local error whose
description is exactly `error fetching ranges: unknown error`; when the decoded
response is a non-nil map with neither `min` nor `max`, the empty map included,
`GetRanges` returns the range `{Minimum: 0, Maximum: 0}` and a nil error. -/
theorem GetRanges_nil_or_keyless {F : Type} (http : Http) (js : Json (Option (GoMap String)))
    (fl : Float64Ops F) (c : Client) (req : RangesRequest) :
    (c.makeRequest http js MethodGet getRangesEndpoint (some (Client.GetRanges_params req)) none
        none = (none, none) →
      c.GetRanges http js fl req =
        (none, some { IsAPIError := false, Code := 0, Error := "",
                      Description := "error fetching ranges: unknown error", TraceID := "" })) ∧
    (∀ m : GoMap String,
      c.makeRequest http js MethodGet getRangesEndpoint (some (Client.GetRanges_params req)) none
        none = (some m, none) →
      m.get? "min" = none → m.get? "max" = none →
      c.GetRanges http js fl req = (some { Minimum := fl.zero, Maximum := fl.zero }, none)) := by
  refine ⟨?_, ?_⟩
  · intro h
    simp only [Client.GetRanges, h, Client.GetRanges_postprocess]
    rfl
  · intro m h hmin hmax
    simp only [Client.GetRanges, h, Client.GetRanges_postprocess, hmin, hmax]

/-- C7 as stated fails on the empty map: the adapter succeeds with status 200
and the body decodes to the empty, non-nil map; `GetRanges` returns the range
`{Minimum: 0, Maximum: 0}` with a nil error, not a local error. -/
theorem GetRanges_empty_map_is_zero_range :
    (New "k").GetRanges (sampleHttp (.ok ⟨200, []⟩))
        (sampleJson (some GoMap.empty, none) (ErrorResponse.zero, none)) sampleFloat64
        ⟨false, "btc", "eth"⟩ =
      (some { Minimum := 0, Maximum := 0 }, none) := by
  rfl

/-- C7 at a concrete call: status 200 and a body that decodes to the nil map
(JSON `null`). -/
theorem GetRanges_nil_or_keyless_witness :
    (New "k").GetRanges (sampleHttp (.ok ⟨200, []⟩))
        (sampleJson (none, none) (ErrorResponse.zero, none)) sampleFloat64
        ⟨false, "btc", "eth"⟩ =
      (none, some { IsAPIError := false, Code := 0, Error := "",
                    Description := "error fetching ranges: unknown error", TraceID := "" }) :=
  (GetRanges_nil_or_keyless (sampleHttp (.ok ⟨200, []⟩))
    (sampleJson (none, none) (ErrorResponse.zero, none)) sampleFloat64 (New "k")
    ⟨false, "btc", "eth"⟩).1 rfl

/-! ## Locally constructed errors (C8) -/

/-- C8: `createErrorResponse` gives, for every underlying error `err` and
context message `msg`, an error with `is_api_error` false, code 0, empty
`error`, empty `trace_id` and the description `msg ++ ": " ++ err`; and every
locally constructed error is its result: on a transport failure, on a failed
decode of a status-200 body, on a failed decode of an error body, and in the
range post-processing (nil response, `min` rejected, `max` rejected). -/
theorem local_errors_from_createErrorResponse {α F : Type} (http : Http) (js : Json α)
    (fl : Float64Ops F) (c : Client) :
    (∀ err msg : String,
      c.createErrorResponse err msg =
        { IsAPIError := false, Code := 0, Error := "", Description := msg ++ ": " ++ err,
          TraceID := "" }) ∧
    (∀ (method endpoint : String) (params headers : Option (GoMap String)) (res : α)
        (err : String),
      c.executeRequest http (c.makeRequest_request http method params headers) method endpoint
          = .error err →
        c.makeRequest http js method endpoint params headers res =
          (res, some (c.createErrorResponse err "error making API request"))) ∧
    (∀ (resp : Response) (res : α) (err : String),
      resp.StatusCode = StatusOK → (js.Unmarshal resp.Body res).2 = some err →
        (c.handleResponse js resp res).2 =
          some (c.createErrorResponse err "error unmarshalling result")) ∧
    (∀ (resp : Response) (res : α) (err : String),
      resp.StatusCode ≠ StatusOK →
        (js.UnmarshalError resp.Body ErrorResponse.zero).2 = some err →
        c.handleResponse js resp res =
          (res, some (c.createErrorResponse err "error unmarshalling error response"))) ∧
    (c.GetRanges_postprocess fl none =
        (none, some (c.createErrorResponse "unknown error" "error fetching ranges"))) ∧
    (∀ (res : GoMap String) (min e : String),
      res.get? "min" = some min → fl.ParseFloat min = .error e →
        c.GetRanges_postprocess fl (some res) =
          (none, some (c.createErrorResponse e "error marshalling result (min)"))) ∧
    (∀ (res : GoMap String) (max e : String),
      (res.get? "min" = none ∨ ∃ m x, res.get? "min" = some m ∧ fl.ParseFloat m = .ok x) →
        res.get? "max" = some max → fl.ParseFloat max = .error e →
        ∃ msg, c.GetRanges_postprocess fl (some res) =
          (none, some (c.createErrorResponse e msg))) := by
  refine ⟨fun _ _ => rfl, ?_, ?_, ?_, rfl, ?_, ?_⟩
  · intro method endpoint params headers res err h
    exact Client.makeRequest_of_error http js c method endpoint params headers res err h
  · intro resp res err hs hd
    rw [Client.handleResponse_ok js c resp res hs, hd]
    rfl
  · intro resp res err hs hd
    rw [Client.handleResponse_not_ok js c resp res hs, Client.unmarshalErrorResponse]
    rcases hu : js.UnmarshalError resp.Body ErrorResponse.zero with ⟨d, e⟩
    rw [hu] at hd
    simp only at hd
    subst hd
    rfl
  · intro res min e hmin he
    exact Client.GetRanges_postprocess_min_error fl c res min e hmin he
  · intro res max e hmin hmax he
    exact ⟨_, Client.GetRanges_postprocess_max_error fl c res max e hmin hmax he⟩

/-- C8 at a concrete call: the transport fails with `dial tcp: timeout`. -/
theorem local_errors_from_createErrorResponse_witness :
    (New "k").makeRequest (sampleHttp (.error "dial tcp: timeout"))
        (sampleJson ((7 : Nat), none) (ErrorResponse.zero, none)) MethodGet getCurrencyEndpoint
        none none (0 : Nat) =
      (0, some { IsAPIError := false, Code := 0, Error := "",
                 Description := "error making API request: dial tcp: timeout", TraceID := "" }) :=
  (local_errors_from_createErrorResponse (sampleHttp (.error "dial tcp: timeout"))
    (sampleJson ((7 : Nat), none) (ErrorResponse.zero, none)) sampleFloat64 (New "k")).2.1
    MethodGet getCurrencyEndpoint none none (0 : Nat) "dial tcp: timeout" rfl

/-! ## The parameters of the exchange wrappers (C9, C10) -/

/-- C9, what the code does: in the parameter mapping `GetExchanges` builds,
`limit`, `offset` and `gte` are present exactly when `Limit`, `Offset` and
`MinTime` are non-zero, with their own field's value; `lte` is present exactly
when `MaxTime` is non-zero, but its value is `MinTime` in RFC 3339, not
`MaxTime`. -/
theorem GetExchanges_params_spec {T : Type} (tm : TimeOps T) (req : ExchangesRequest T) :
    (Client.GetExchanges_params tm req).get? "limit" =
        (if req.Limit = 0 then none else some (fmtInt req.Limit)) ∧
    (Client.GetExchanges_params tm req).get? "offset" =
        (if req.Offset = 0 then none else some (fmtInt req.Offset)) ∧
    (Client.GetExchanges_params tm req).get? "gte" =
        (if tm.IsZero req.MinTime then none else some (tm.FormatRFC3339 req.MinTime)) ∧
    (Client.GetExchanges_params tm req).get? "lte" =
        (if tm.IsZero req.MaxTime then none else some (tm.FormatRFC3339 req.MinTime)) := by
  refine ⟨?_, ?_, ?_, ?_⟩ <;>
  · unfold Client.GetExchanges_params
    by_cases h1 : req.Limit = 0 <;> by_cases h2 : req.Offset = 0 <;>
      cases h3 : tm.IsZero req.MinTime <;> cases h4 : tm.IsZero req.MaxTime <;>
      simp [h1, h2, GoMap.get?_set_self, GoMap.get?_set_ne, GoMap.get?_empty]

/-- C9 at the failing input: with `MinTime` the instant 5 and `MaxTime` the
instant 9, the parameter `lte` is the text of 5, while `MaxTime` formats as the
text of 9. -/
theorem GetExchanges_params_spec_witness :
    (Client.GetExchanges_params sampleTime ⟨0, 0, 5, 9⟩).get? "lte" = some "5" ∧
    sampleTime.FormatRFC3339 9 = "9" :=
  ⟨(GetExchanges_params_spec sampleTime ⟨0, 0, 5, 9⟩).2.2.2, by decide⟩

/-- C10, what the code does: for every `ExchangeRequest` the parameter mapping
of `CreateExchange` holds `fixed`, `currency_from`, `currency_to`, `amount`,
`extra_id_to`, `user_refund_address` and `user_refund_extra_id` with their
field's value, and has no entry `address_to`: `req.AddressTo` is not sent. -/
theorem CreateExchange_params_spec (req : ExchangeRequest) :
    (Client.CreateExchange_params req).get? "fixed" = some (fmtBool req.Fixed) ∧
    (Client.CreateExchange_params req).get? "currency_from" = some req.CurrencyFrom ∧
    (Client.CreateExchange_params req).get? "currency_to" = some req.CurrencyTo ∧
    (Client.CreateExchange_params req).get? "amount" = some (fmtInt req.Amount) ∧
    (Client.CreateExchange_params req).get? "extra_id_to" = some req.ExtraIDTo ∧
    (Client.CreateExchange_params req).get? "user_refund_address" = some req.UserRefundAddress ∧
    (Client.CreateExchange_params req).get? "user_refund_extra_id"
      = some req.UserRefundExtraID ∧
    (Client.CreateExchange_params req).get? "address_to" = none := by
  refine ⟨?_, ?_, ?_, ?_, ?_, ?_, ?_, ?_⟩ <;>
    simp [Client.CreateExchange_params, GoMap.get?_set_self, GoMap.get?_set_ne, GoMap.get?_empty]

/-- C10 at the failing input: a request with `AddressTo = "bc1qdest"` yields a
parameter mapping without `address_to`, while `amount` is sent as `2`. -/
theorem CreateExchange_params_spec_witness :
    (Client.CreateExchange_params
      ⟨true, "btc", "eth", 2, "bc1qdest", "", "", "", "", "", "", ""⟩).get? "address_to" = none ∧
    (Client.CreateExchange_params
      ⟨true, "btc", "eth", 2, "bc1qdest", "", "", "", "", "", "", ""⟩).get? "amount"
        = some "2" :=
  ⟨(CreateExchange_params_spec
      ⟨true, "btc", "eth", 2, "bc1qdest", "", "", "", "", "", "", ""⟩).2.2.2.2.2.2.2,
   (CreateExchange_params_spec
      ⟨true, "btc", "eth", 2, "bc1qdest", "", "", "", "", "", "", ""⟩).2.2.2.1⟩

end GoSimpleSwap
